import Mathlib

/-!
Verification development for the MedMove Diagnostics measurement core
(`src/PythonApp/gui_app.py`).  The Python source is shallowly embedded:

* Python `float` values are modelled as rationals (`ℚ`); the operations the
  core performs on them (addition, halving, one-decimal rendering, literal
  parsing of finite decimal notation) are exact on these inputs, so nothing
  in the model depends on binary floating-point rounding.
* CPython's builtin `float(str)` is modelled by `pyFloatChars` on finite
  decimal literals (optional sign, digits with underscores, decimal point,
  exponent), with surrounding whitespace stripped, returning `none` exactly
  where CPython raises `ValueError`.  The special forms `inf`/`nan` have no
  rational value and lie outside the model.
* The GUI `App` object's measurement-relevant mutable attributes become the
  `AppState` structure; calls to the display collaborator (message boxes,
  live-angle canvas, ROM gauges, serial writes) are recorded in an append-only
  event list.  Tk's `after`-driven polling tick becomes the explicit step
  function `read_serial_live` taking the current wall-clock time and the
  lines drained from the serial port this tick.
-/

/-! ## Characters, digits, whitespace -/

def isDig (c : Char) : Bool := 48 ≤ c.toNat && c.toNat ≤ 57

def dval (c : Char) : Nat := c.toNat - 48

def dchar (d : Nat) : Char := Char.ofNat (48 + d)

/-- Whitespace stripped by Python `str.strip()` / `float()` (ASCII range). -/
def isPySpace (c : Char) : Bool :=
  c == ' ' || c == '\t' || c == '\n' || c == '\r' || c == '\x0b' || c == '\x0c'

def stripChars (l : List Char) : List Char :=
  ((l.dropWhile isPySpace).reverse.dropWhile isPySpace).reverse

def pyStrip (s : String) : String := String.mk (stripChars s.data)

/-! ## Model of CPython `float()` on finite decimal literals -/

/-- Consume a maximal run of decimal digits, allowing single underscores
between digits (CPython numeric-literal rule).  Returns the accumulated
value, the number of digits consumed, and the rest of the input; `a`, `k`
are the accumulator and digit count so far. -/
def digRun : List Char → Nat → Nat → Nat × Nat × List Char
  | [], a, k => (a, k, [])
  | c :: cs, a, k =>
    if isDig c then digRun cs (10 * a + dval c) (k + 1)
    else if c = '_' ∧ k ≠ 0 then
      match cs with
      | d :: cs2 => if isDig d then digRun cs2 (10 * a + dval d) (k + 1) else (a, k, c :: cs)
      | [] => (a, k, c :: cs)
    else (a, k, c :: cs)

/-- A `digitpart` of the Python float grammar: at least one digit. -/
def digitpart (cs : List Char) : Option (Nat × Nat × List Char) :=
  match digRun cs 0 0 with
  | (v, k, r) => if k = 0 then none else some (v, k, r)

/-- Mantissa of the grammar, `digitpart [. digitpart?] | . digitpart`,
returned as integer part, fraction digits value, fraction digit count. -/
def mantissa (cs : List Char) : Option (Nat × Nat × Nat × List Char) :=
  match digitpart cs with
  | some (i, _, r) =>
    match r with
    | '.' :: r2 =>
      match digitpart r2 with
      | some (f, k, r3) => some (i, f, k, r3)
      | none => some (i, 0, 0, r2)
    | _ => some (i, 0, 0, r)
  | none =>
    match cs with
    | '.' :: cs2 => (digitpart cs2).map (fun p => (0, p.1, p.2.1, p.2.2))
    | _ => none

/-- Optional exponent `e[+-]digitpart`; absent exponent consumes nothing. -/
def parseExp (cs : List Char) : Option (ℤ × List Char) :=
  match cs with
  | [] => some (0, [])
  | c :: cs2 =>
    if c = 'e' ∨ c = 'E' then
      match cs2 with
      | [] => none
      | s :: cs3 =>
        if s = '+' then (digitpart cs3).map (fun p => ((p.1 : ℤ), p.2.2))
        else if s = '-' then (digitpart cs3).map (fun p => (-(p.1 : ℤ), p.2.2))
        else (digitpart cs2).map (fun p => ((p.1 : ℤ), p.2.2))
    else some (0, cs)

/-- The rational `(i + f / 10^k) * 10^e`, assembled as a single `mkRat` so
that it evaluates by integer arithmetic alone. -/
def ratParts (i f k : Nat) (e : ℤ) : ℚ :=
  let n : ℤ := ((i * 10 ^ k + f : ℕ) : ℤ)
  let t : ℤ := e - (k : ℤ)
  if 0 ≤ t then mkRat (n * ((10 ^ t.toNat : ℕ) : ℤ)) 1 else mkRat n (10 ^ (-t).toNat)

/-- Negation by numerator sign flip (equal to `-q`, see `qneg_eq`). -/
def qneg (q : ℚ) : ℚ := mkRat (-q.num) q.den

def pyFloatCore (cs : List Char) : Option ℚ :=
  (mantissa cs).bind fun m =>
    (parseExp m.2.2.2).bind fun e =>
      if e.2 = [] then some (ratParts m.1 m.2.1 m.2.2.1 e.1) else none

def pyFloatChars (cs : List Char) : Option ℚ :=
  match cs with
  | [] => none
  | c :: cs2 =>
    if c = '+' then pyFloatCore cs2
    else if c = '-' then (pyFloatCore cs2).map qneg
    else pyFloatCore cs

/-- Model of `float(s)`: strip whitespace, then parse a signed decimal
literal; `none` models a raised `ValueError`. -/
def pyFloat (s : String) : Option ℚ := pyFloatChars (stripChars s.data)

/-! ## One-decimal rendering (Python format spec `.1f`) -/

/-- Decimal digits of a natural number, most significant first, via fuel
(structural recursion so that the kernel can evaluate it). -/
def natDigsF : Nat → Nat → List Char
  | 0, _ => []
  | f + 1, n => if n < 10 then [dchar n] else natDigsF f (n / 10) ++ [dchar (n % 10)]

def natDigs (n : Nat) : List Char := natDigsF (n + 1) n

/-- Subtraction in `mkRat` form (equal to `a - b`, see `qsub_eq`). -/
def qsub (a b : ℚ) : ℚ := mkRat (a.num * (b.den : ℤ) - b.num * (a.den : ℤ)) (a.den * b.den)

/-- Scaling by a natural number in `mkRat` form (equal to `(c : ℚ) * q`,
see `qscale_eq`). -/
def qscale (c : ℕ) (q : ℚ) : ℚ := mkRat ((c : ℤ) * q.num) q.den

/-- Round to the nearest integer, ties to even — the rounding CPython's
fixed-point formatting applies to the (exactly represented) value. -/
def rndHalfEven (q : ℚ) : ℤ :=
  let f := q.floor
  let r := qsub q (mkRat f 1)
  if r < mkRat 1 2 then f else if mkRat 1 2 < r then f + 1 else if f % 2 = 0 then f else f + 1

def fmt1Chars (q : ℚ) : List Char :=
  let n := rndHalfEven (qscale 10 q)
  let s := natDigs (n.natAbs / 10) ++ ['.', dchar (n.natAbs % 10)]
  if n < 0 then '-' :: s else s

/-- Model of the f-string rendering `f"{q:.1f}"`. -/
def fmt1 (q : ℚ) : String := String.mk (fmt1Chars q)

/-- The rational actually denoted by the one-decimal rendering of `q`:
`q` rounded (ties to even) to one decimal place. -/
def round1 (q : ℚ) : ℚ := mkRat (rndHalfEven (qscale 10 q)) 10

/-! ## ROM calculator (`ROMCalculator` in the source) -/

structure RomResult where
  wrist : ℚ
  forearm : ℚ
  elbow : ℚ
  wrist_deviation : ℚ
deriving DecidableEq

/-- `ROMCalculator.safe_float`: convert entry text to float, `0.0` on failure. -/
def safe_float (text : String) : ℚ := (pyFloat text).getD 0

/-- `ROMCalculator.calculate_rom_side` applied to the texts of the eight
entry widgets of one side. -/
def calculate_rom_side (entries : List String) : RomResult :=
  { wrist := safe_float (entries.getD 0 ("")) + safe_float (entries.getD 1 (""))
    forearm := safe_float (entries.getD 2 ("")) + safe_float (entries.getD 3 (""))
    elbow := (safe_float (entries.getD 4 ("")) + safe_float (entries.getD 5 (""))) / 2
    wrist_deviation := safe_float (entries.getD 6 ("")) + safe_float (entries.getD 7 ("")) }

/-- Modelled from the spec: `compute(slots : [8]Optional<float>) -> RomResult`
treating unset slots as `0.0` (spec §4.3); used to compare the source's
`calculate_rom_side` against the specified formula. -/
def rom_spec (slots : List (Option ℚ)) : RomResult :=
  { wrist := (slots.getD 0 none).getD 0 + (slots.getD 1 none).getD 0
    forearm := (slots.getD 2 none).getD 0 + (slots.getD 3 none).getD 0
    elbow := ((slots.getD 4 none).getD 0 + (slots.getD 5 none).getD 0) / 2
    wrist_deviation := (slots.getD 6 none).getD 0 + (slots.getD 7 none).getD 0 }

/-! ## Line splitting (Python `str.split(sep)` for nonempty `sep`) -/

def startsWithL : List Char → List Char → Bool
  | [], _ => true
  | _ :: _, [] => false
  | s :: ss, c :: cs => s == c && startsWithL ss cs

/-- Fuel-driven worker for `splitOnL`; fuel `≥ length + 1` always suffices
for a nonempty separator. -/
def splitGo : Nat → List Char → List Char → List Char → List (List Char)
  | 0, _, l, acc => [acc.reverse ++ l]
  | f + 1, sep, l, acc =>
    match l with
    | [] => [acc.reverse]
    | c :: cs =>
      if startsWithL sep (c :: cs) then
        acc.reverse :: splitGo f sep (List.drop (sep.length - 1) cs) []
      else
        splitGo f sep cs (c :: acc)

/-- Python `str.split(sep)` on character lists (`sep` nonempty): splits on
every occurrence, left to right; no occurrence gives the singleton list. -/
def splitOnL (sep : List Char) (l : List Char) : List (List Char) :=
  splitGo (l.length + 1) sep l []

def nlChar : Char := Char.ofNat 10

def markerL : List Char := ['A', 'N', 'G', 'L', 'E', ':']

/-- Does the line contain the literal marker (Python `"ANGLE:" in line`)? -/
def hasMarker (line : List Char) : Bool := decide (1 < (splitOnL markerL line).length)

/-! ## The two angle parsers -/

/-- Model of the live parse in `read_serial_live`: `float(line)` on an
already-stripped line, `ValueError` as `none`.  Total by construction:
a failure is a value, never an exception. -/
def parse_live (line : String) : Option ℚ := pyFloat line

/-- The per-line step of the final scan in `process_final_serial_data`:
if the line contains `ANGLE:`, try `float` on the text between the first
and second occurrence (Python `line.split("ANGLE:")[1].strip()`, with the
strip absorbed into `pyFloat`); otherwise, and on parse failure, `none`. -/
def lineAngle (line : List Char) : Option ℚ :=
  match splitOnL markerL line with
  | _ :: seg :: _ => pyFloatChars (stripChars seg)
  | _ => none

/-- The lines of `self.serial_full_response.strip().split("\x5cn")`. -/
def linesOf (buffer : String) : List (List Char) :=
  splitOnL [nlChar] (stripChars buffer.data)

/-- Model of the scan in `process_final_serial_data` (lines 197-207):
strip the accumulated response, split into lines, and walk them from the
last to the first, returning the first successfully parsed `ANGLE:` value
(a tagged line whose suffix fails to parse is skipped by the `continue`
and the scan moves on to earlier lines). -/
def parse_final (buffer : String) : Option ℚ :=
  ((linesOf buffer).reverse).findSome? lineAngle

/-! ## The application state machine (`App` in the source) -/

inductive Side where
  | unaffected : Side
  | affected : Side
deriving DecidableEq

inductive Mode where
  | measurement : Mode
  | calibration : Mode
deriving DecidableEq

/-- Observable calls the core makes on its collaborators: serial writes,
message boxes (`errMsg`), live-angle canvas updates (`liveAngle`), the
entry-widget write on finalize (`finalAngle`), and the ROM gauge refresh
(`romUpdate`). -/
inductive Event where
  | resetInput : Event
  | serWrite : Char → Event
  | liveAngle : ℚ → Event
  | finalAngle : Side → Nat → String → Event
  | romUpdate : Event
  | errMsg : String → Event
deriving DecidableEq

/-- The measurement-relevant mutable attributes of `App`.  `ser` is `none`
when no `serial.Serial` instance exists, `some b` for an instance with
`is_open = b`.  The entry widgets hold text; the empty string is an unset
slot.  `events` is the append-only log of collaborator calls. -/
structure AppState where
  ser : Option Bool
  movement_letter : Option Char
  selected_movement : Option Nat
  selected_side : Option Side
  serial_read_start_time : Option ℚ
  serial_full_response : String
  serial_read_duration : ℚ
  serial_read_mode : Mode
  unaffected_angle_entries : List String
  affected_angle_entries : List String
  live_angle : ℚ
  serial_output_box : String
  events : List Event
deriving DecidableEq

def pushEvent (st : AppState) (e : Event) : AppState :=
  { st with events := st.events ++ [e] }

def msgNotConnected : String := "Bluetooth not connected!"

def msgNoMovement : String := "No movement selected!"

def msgNoAngle : String := "No valid ANGLE data found!"

def msgProcessing : String := "Processing error"

def nlStr : String := String.mk [nlChar]

/-- `App.__init__` core state (widget collections start as the eight empty
readonly entries built by `setup_sidebar`). -/
def initState : AppState :=
  { ser := none
    movement_letter := none
    selected_movement := none
    selected_side := none
    serial_read_start_time := none
    serial_full_response := ""
    serial_read_duration := 7000
    serial_read_mode := Mode.measurement
    unaffected_angle_entries := List.replicate 8 ""
    affected_angle_entries := List.replicate 8 ""
    live_angle := 0
    serial_output_box := ""
    events := [] }

/-- `App.connect_bluetooth`, success path: `self.ser` becomes an open port. -/
def connect_bluetooth_ok (st : AppState) : AppState := { st with ser := some true }

/-- `App.select_movement`: record the command letter, movement index and
side for the next measurement. -/
def select_movement (st : AppState) (letter : Char) (idx : Nat) (side : Side) : AppState :=
  { st with movement_letter := some letter
            selected_movement := some idx
            selected_side := some side }

/-- One drained line inside the `while self.ser.in_waiting` loop of
`read_serial_live`: strip, append to the accumulated response and the
output box, then try `float(line)` for the live display (failures are
skipped by `continue`). -/
def drainLine (st : AppState) (raw : String) : AppState :=
  let line := pyStrip raw
  let st1 := { st with serial_full_response := st.serial_full_response ++ line ++ nlStr
                       serial_output_box := st.serial_output_box ++ line ++ nlStr }
  match parse_live line with
  | some a => { st1 with live_angle := a, events := st1.events ++ [Event.liveAngle a] }
  | none => st1

/-- Drain all currently available lines, in arrival order. -/
def drain (st : AppState) (lines : List String) : AppState := lines.foldl drainLine st

def getEntries (st : AppState) (side : Side) : List String :=
  match side with
  | Side.unaffected => st.unaffected_angle_entries
  | Side.affected => st.affected_angle_entries

def setEntry (st : AppState) (side : Side) (idx : Nat) (text : String) : AppState :=
  match side with
  | Side.unaffected =>
    { st with unaffected_angle_entries := st.unaffected_angle_entries.set idx text }
  | Side.affected =>
    { st with affected_angle_entries := st.affected_angle_entries.set idx text }

/-- `App.process_final_serial_data`: run the final scan over the
accumulated response; on failure show the no-data error and return; on
success write the angle formatted `f"{v:.1f}"` into the selected side's
entry at the selected index, refresh the ROM display, and update the live
canvas with the exact value.  A missing side is a silent return (the
`else` branch); a missing index models the caught indexing exception. -/
def process_final_serial_data (st : AppState) : AppState :=
  match parse_final st.serial_full_response with
  | none => pushEvent st (Event.errMsg msgNoAngle)
  | some v =>
    match st.selected_side with
    | none => st
    | some side =>
      match st.selected_movement with
      | none => pushEvent st (Event.errMsg msgProcessing)
      | some idx =>
        let txt := fmt1 v
        let st1 := setEntry st side idx txt
        let st2 := { st1 with events := st1.events ++
          [Event.finalAngle side idx txt, Event.romUpdate, Event.liveAngle v] }
        { st2 with live_angle := v }

/-- The deadline test `(time.time() - start) * 1000 >= duration`, written
in `mkRat` form so that it evaluates by integer arithmetic; `elapsedMs_eq`
proves it equal to the textbook expression. -/
def elapsedMs (now t0 : ℚ) : ℚ := qscale 1000 (qsub now t0)

/-- `App.read_serial_live`, one polling tick: parameters are the current
wall-clock time and the decoded lines available on the port this tick.
Returns the new state and whether `self.after(50, read_serial_live)`
re-armed the timer.  A missing serial port or a closed port returns at
once; a `None` start time (impossible after a `start`) is modelled as a
dead tick. -/
def read_serial_live (st : AppState) (now : ℚ) (incoming : List String) : AppState × Bool :=
  match st.ser with
  | some true =>
    let st1 := drain st incoming
    match st1.serial_read_start_time with
    | none => (st1, false)
    | some t0 =>
      if st1.serial_read_duration ≤ elapsedMs now t0 then
        if st1.serial_read_mode = Mode.measurement then (process_final_serial_data st1, false)
        else (st1, false)
      else (st1, true)
  | _ => (st, false)

/-- `App.start_measurement` up to (and excluding) its immediate call of
`read_serial_live`: precondition checks, then command write and session
reset.  The two error paths return before touching the port or any
session state. -/
def start_measurement (st : AppState) (now : ℚ) : AppState :=
  match st.ser with
  | some true =>
    match st.movement_letter, st.selected_movement, st.selected_side with
    | some letter, some _, some _ =>
      { st with events := st.events ++ [Event.resetInput, Event.serWrite letter]
                serial_output_box := ""
                serial_read_start_time := some now
                serial_full_response := ""
                serial_read_mode := Mode.measurement }
    | _, _, _ => pushEvent st (Event.errMsg msgNoMovement)
  | _ => pushEvent st (Event.errMsg msgNotConnected)

/-- `App.calibrate` up to (and excluding) its immediate call of
`read_serial_live`: connection check, fixed `b'r'` write, session reset in
calibration mode.  No movement selection is consulted. -/
def calibrate (st : AppState) (now : ℚ) : AppState :=
  match st.ser with
  | some true =>
    { st with events := st.events ++ [Event.resetInput, Event.serWrite 'r']
              serial_output_box := ""
              serial_read_start_time := some now
              serial_full_response := ""
              serial_read_mode := Mode.calibration }
  | _ => pushEvent st (Event.errMsg msgNotConnected)

/-- `App.clear_all_measurements`: blank every entry on both sides, zero
the ROM gauges and the live canvas, clear the output box.  The serial
connection and the session attributes are not touched. -/
def clear_all_measurements (st : AppState) : AppState :=
  { st with unaffected_angle_entries := st.unaffected_angle_entries.map (fun _ => "")
            affected_angle_entries := st.affected_angle_entries.map (fun _ => "")
            live_angle := 0
            serial_output_box := ""
            events := st.events ++ [Event.liveAngle 0] }

/-- A queued Tk timer callback carries no session identity: this is the
callback as schedulable by any (possibly superseded) session's chain, with
its scheduling generation recorded purely as bookkeeping.  The body
ignores the tag — the source closure `self.read_serial_live` has no
generation token. -/
def tickTagged (gen : Nat) (st : AppState) (now : ℚ) (incoming : List String) :
    AppState × Bool :=
  (fun _ => read_serial_live st now incoming) gen


/-! ## Concrete runs used by the claims

Wall-clock times are rationals in seconds (`mkRat 1 20` is the 50 ms tick
cadence); the scheduler supplies them to each tick. -/

/-- Connected application. -/
def stConnected : AppState := connect_bluetooth_ok initState

/-- Connected, with ("Wrist Flexion", unaffected) selected (letter `f`,
index 0). -/
def stSelected : AppState := select_movement stConnected 'f' 0 Side.unaffected

/-- Measurement session started at `t = 0`. -/
def stStarted : AppState := start_measurement stSelected 0

/-- First polling tick at 50 ms: device streamed a noise line and a tagged
line. -/
def runNoise1 : AppState × Bool := read_serial_live stStarted (mkRat 1 20) ["noise", "ANGLE:42.3"]

/-- Tick at `t = 7 s`: the 7000 ms deadline has elapsed; finalize runs. -/
def runFinal : AppState × Bool := read_serial_live runNoise1.1 7 []

/-- Variant run whose tagged value 42.3125 is not one-decimal exact. -/
def runBad1 : AppState × Bool := read_serial_live stStarted (mkRat 1 20) ["ANGLE:42.3125"]

def runBadFinal : AppState × Bool := read_serial_live runBad1.1 7 []

/-- A second session (letter `e`, index 1, affected) started at `t = 1 s`,
superseding the `t = 0` session whose deadline has not elapsed. -/
def stStarted2 : AppState := start_measurement (select_movement stStarted 'e' 1 Side.affected) 1

/-- A still-queued tick of the superseded session's chain, firing at
`t = 8.05 s` (tag 1 records which session scheduled it). -/
def staleTick : AppState × Bool := tickTagged 1 stStarted2 (mkRat 161 20) ["ANGLE:50.0"]

/-- Calibration started at `t = 0` on the connected, selected state. -/
def calibStarted : AppState := calibrate stSelected 0

/-- Calibration tick past the deadline with a live value available. -/
def calibTick : AppState × Bool := read_serial_live calibStarted 8 ["91.2"]

/-- Measurement tick past the deadline with a device that never sent a
byte. -/
def silentTick : AppState × Bool := read_serial_live stStarted 8 []

/-! ## Bridging lemmas: `mkRat` forms versus field operations -/

theorem mkRat_as_div (n : ℤ) (d : ℕ) : mkRat n d = (n : ℚ) / (d : ℚ) := by
  rw [Rat.mkRat_eq_divInt, Rat.divInt_eq_div]
  norm_cast

theorem qneg_eq (q : ℚ) : qneg q = -q := by
  rw [qneg, mkRat_as_div]
  push_cast
  rw [neg_div, Rat.num_div_den]

theorem qsub_eq (a b : ℚ) : qsub a b = a - b := (Rat.sub_def' a b).symm

theorem qscale_eq (c : ℕ) (q : ℚ) : qscale c q = (c : ℚ) * q := by
  rw [qscale, mkRat_as_div]
  push_cast
  rw [mul_div_assoc, Rat.num_div_den]

theorem elapsedMs_eq (now t0 : ℚ) : elapsedMs now t0 = (now - t0) * 1000 := by
  rw [elapsedMs, qscale_eq, qsub_eq]
  push_cast
  ring

theorem round1_as_div (q : ℚ) :
    round1 q = ((rndHalfEven (qscale 10 q) : ℤ) : ℚ) / 10 := by
  rw [round1, mkRat_as_div]
  norm_num

/-! ## Digit characters -/

theorem dchar_facts (d : Nat) (h : d < 10) :
    isDig (dchar d) = true ∧ dval (dchar d) = d ∧ isPySpace (dchar d) = false ∧
    dchar d ≠ '+' ∧ dchar d ≠ '-' ∧ dchar d ≠ '.' ∧ dchar d ≠ '_' ∧
    dchar d ≠ 'e' ∧ dchar d ≠ 'E' := by
  interval_cases d <;> exact ⟨rfl, rfl, rfl, by decide, by decide, by decide, by decide,
    by decide, by decide⟩

/-! ## Decimal rendering of naturals -/

theorem natDigsF_congr (n : Nat) : ∀ f f', n < f → n < f' → natDigsF f n = natDigsF f' n := by
  induction n using Nat.strong_induction_on with
  | _ n ih =>
    intro f f' hf hf'
    match f, f', hf, hf' with
    | f + 1, f' + 1, hf, hf' =>
      by_cases h : n < 10
      · simp [natDigsF, h]
      · have hd : n / 10 < n := Nat.div_lt_self (by omega) (by omega)
        simp only [natDigsF, if_neg h]
        have := ih (n / 10) hd f f' (by omega) (by omega)
        rw [this]

theorem natDigsF_succ (f n : Nat) :
    natDigsF (f + 1) n =
      if n < 10 then [dchar n] else natDigsF f (n / 10) ++ [dchar (n % 10)] := rfl

theorem natDigs_small {n : Nat} (h : n < 10) : natDigs n = [dchar n] := by
  rw [natDigs, natDigsF_succ, if_pos h]

theorem natDigs_step {n : Nat} (h : ¬ n < 10) :
    natDigs n = natDigs (n / 10) ++ [dchar (n % 10)] := by
  rw [natDigs, natDigsF_succ, if_neg h,
    natDigsF_congr (n / 10) n (n / 10 + 1) (by omega) (by omega)]
  rfl

theorem natDigs_head (n : Nat) : ∃ d t, natDigs n = dchar d :: t ∧ d < 10 := by
  induction n using Nat.strong_induction_on with
  | _ n ih =>
    by_cases h : n < 10
    · exact ⟨n, [], natDigs_small h, h⟩
    · obtain ⟨d, t, ht, hd⟩ := ih (n / 10) (Nat.div_lt_self (by omega) (by omega))
      exact ⟨d, t ++ [dchar (n % 10)], by rw [natDigs_step h, ht]; rfl, hd⟩

theorem natDigs_all_digits (n : Nat) : ∀ c ∈ natDigs n, ∃ d, d < 10 ∧ c = dchar d := by
  induction n using Nat.strong_induction_on with
  | _ n ih =>
    by_cases h : n < 10
    · rw [natDigs_small h]
      rintro c hc
      simp only [List.mem_singleton] at hc
      exact ⟨n, h, hc⟩
    · rw [natDigs_step h]
      intro c hc
      rcases List.mem_append.1 hc with hc | hc
      · exact ih (n / 10) (Nat.div_lt_self (by omega) (by omega)) c hc
      · simp only [List.mem_singleton] at hc
        exact ⟨n % 10, Nat.mod_lt _ (by omega), hc⟩

theorem digRun_nil (a k : Nat) : digRun [] a k = (a, k, []) := rfl

theorem digRun_digit {c : Char} (h : isDig c = true) (cs : List Char) (a k : Nat) :
    digRun (c :: cs) a k = digRun cs (10 * a + dval c) (k + 1) := by
  conv_lhs => unfold digRun
  rw [h]
  rfl

theorem digRun_stop {c : Char} (h1 : isDig c = false) (h2 : c ≠ '_') (cs : List Char)
    (a k : Nat) : digRun (c :: cs) a k = (a, k, c :: cs) := by
  conv_lhs => unfold digRun
  rw [h1]
  simp [h2]

/-- Running the digit scanner over a rendered natural continues into the
rest with the value accumulated. -/
theorem digRun_natDigs (n : Nat) :
    ∀ r a k, digRun (natDigs n ++ r) a k =
      digRun r (a * 10 ^ (natDigs n).length + n) (k + (natDigs n).length) := by
  induction n using Nat.strong_induction_on with
  | _ n ih =>
    intro r a k
    by_cases h : n < 10
    · rw [natDigs_small h]
      obtain ⟨h1, h2, -⟩ := dchar_facts n h
      rw [List.singleton_append, digRun_digit h1, h2, List.length_singleton]
      have ha : a * 10 ^ (1 : ℕ) + n = 10 * a + n := by ring
      rw [ha]
    · have hd : n / 10 < n := Nat.div_lt_self (by omega) (by omega)
      rw [natDigs_step h, List.append_assoc, List.singleton_append, ih (n / 10) hd]
      obtain ⟨h1, h2, -⟩ := dchar_facts (n % 10) (Nat.mod_lt _ (by omega))
      rw [digRun_digit h1, h2, List.length_append, List.length_singleton]
      have hpow : a * 10 ^ ((natDigs (n / 10)).length + 1)
          = a * 10 ^ (natDigs (n / 10)).length * 10 := by ring
      rw [hpow]
      generalize a * 10 ^ (natDigs (n / 10)).length = P
      have hsplit : 10 * (n / 10) + n % 10 = n := Nat.div_add_mod n 10
      have e1 : 10 * (P + n / 10) + n % 10 = P * 10 + n := by omega
      have e2 : k + (natDigs (n / 10)).length + 1 = k + ((natDigs (n / 10)).length + 1) := by
        omega
      rw [e1, e2]

theorem natDigs_len_pos (n : Nat) : 0 < (natDigs n).length := by
  obtain ⟨d, t, ht, -⟩ := natDigs_head n
  rw [ht]
  simp

theorem digitpart_eq (cs : List Char) :
    digitpart cs =
      match digRun cs 0 0 with
      | (v, k, r) => if k = 0 then none else some (v, k, r) := rfl

/-- `digitpart` on a rendered natural followed by a non-digit, non-underscore
stop character. -/
theorem digitpart_natDigs {c : Char} (h1 : isDig c = false) (h2 : c ≠ '_') (n : Nat)
    (r : List Char) :
    digitpart (natDigs n ++ c :: r) = some (n, (natDigs n).length, c :: r) := by
  rw [digitpart_eq, digRun_natDigs, digRun_stop h1 h2]
  have hl := natDigs_len_pos n
  simp only [Nat.zero_add, Nat.zero_mul]
  rw [if_neg (Nat.pos_iff_ne_zero.mp hl)]

/-- `digitpart` on a rendered natural at the end of input. -/
theorem digitpart_natDigs_nil (n : Nat) :
    digitpart (natDigs n ++ ([] : List Char)) = some (n, (natDigs n).length, []) := by
  rw [digitpart_eq, digRun_natDigs, digRun_nil]
  have hl := natDigs_len_pos n
  simp only [Nat.zero_add, Nat.zero_mul]
  rw [if_neg (Nat.pos_iff_ne_zero.mp hl)]

/-! ## Strip is the identity on space-free text -/

theorem dropWhile_false {p : Char → Bool} :
    ∀ l : List Char, (∀ c ∈ l, p c = false) → l.dropWhile p = l := by
  intro l h
  cases l with
  | nil => rfl
  | cons c cs =>
    rw [List.dropWhile_cons, h c (by simp)]
    simp

theorem stripChars_id {l : List Char} (h : ∀ c ∈ l, isPySpace c = false) :
    stripChars l = l := by
  rw [stripChars, dropWhile_false l h, dropWhile_false l.reverse
    (by intro c hc; exact h c (List.mem_reverse.1 hc)), List.reverse_reverse]

/-! ## Reparsing a one-decimal rendering -/

theorem mantissa_render (m d : Nat) (hdlt : d < 10) :
    mantissa (natDigs m ++ '.' :: [dchar d]) = some (m, d, 1, []) := by
  have h1 : digitpart (natDigs m ++ '.' :: [dchar d]) =
      some (m, (natDigs m).length, '.' :: [dchar d]) :=
    digitpart_natDigs (by decide) (by decide) m _
  have h2 : digitpart [dchar d] = some (d, 1, []) := by
    have h := digitpart_natDigs_nil d
    rw [natDigs_small hdlt] at h
    simpa using h
  simp only [mantissa, h1, h2]

theorem pyFloatChars_neg (s : List Char) :
    pyFloatChars ('-' :: s) = (pyFloatCore s).map qneg := by
  simp [pyFloatChars]

theorem pyFloatChars_nosign {c : Char} (h1 : c ≠ '+') (h2 : c ≠ '-') (s : List Char) :
    pyFloatChars (c :: s) = pyFloatCore (c :: s) := by
  simp [pyFloatChars, h1, h2]

theorem pyFloatCore_render (m d : Nat) (hdlt : d < 10) :
    pyFloatCore (natDigs m ++ '.' :: [dchar d]) =
      some (mkRat ((10 * m + d : ℕ) : ℤ) 10) := by
  rw [pyFloatCore, mantissa_render m d hdlt, Option.some_bind,
    show parseExp [] = some (0, []) from rfl, Option.some_bind, if_pos rfl]
  congr 1
  rw [ratParts]
  norm_num
  congr 1
  omega

theorem render_no_space (m d : Nat) (hdlt : d < 10) :
    ∀ c ∈ natDigs m ++ '.' :: [dchar d], isPySpace c = false := by
  intro c hc
  rcases List.mem_append.1 hc with hc | hc
  · obtain ⟨e, he, hce⟩ := natDigs_all_digits m c hc
    rw [hce]
    exact (dchar_facts e he).2.2.1
  · simp only [List.mem_cons, List.not_mem_nil, or_false] at hc
    rcases hc with hc | hc
    · rw [hc]; decide
    · rw [hc]; exact (dchar_facts d hdlt).2.2.1

/-- Reparsing the one-decimal rendering of a rational yields exactly its
one-decimal rounding: `safe_float` applied to the `.1f` rendering of `q`
is `round1 q`. -/
theorem safe_float_fmt1 (q : ℚ) : safe_float (fmt1 q) = round1 q := by
  have hdlt : (rndHalfEven (qscale 10 q)).natAbs % 10 < 10 := Nat.mod_lt _ (by omega)
  set n := rndHalfEven (qscale 10 q) with hn
  set m := n.natAbs / 10 with hm
  set d := n.natAbs % 10 with hd
  have hchars : fmt1Chars q =
      if n < 0 then '-' :: (natDigs m ++ '.' :: [dchar d])
      else natDigs m ++ '.' :: [dchar d] := rfl
  have hcore := pyFloatCore_render m d hdlt
  have hnospace := render_no_space m d hdlt
  rw [safe_float, fmt1, pyFloat]
  show (pyFloatChars (stripChars (fmt1Chars q))).getD 0 = round1 q
  rw [hchars]
  by_cases hneg : n < 0
  · rw [if_pos hneg]
    rw [stripChars_id (by
      intro c hc
      rcases List.mem_cons.1 hc with hc | hc
      · rw [hc]; decide
      · exact hnospace c hc)]
    rw [pyFloatChars_neg, hcore]
    simp only [Option.map_some']
    show qneg (mkRat ((10 * m + d : ℕ) : ℤ) 10) = round1 q
    rw [qneg_eq, round1, ← hn, mkRat_as_div, mkRat_as_div]
    have hz : ((10 * m + d : ℕ) : ℤ) = -n := by omega
    rw [hz]
    push_cast
    ring
  · rw [if_neg hneg]
    rw [stripChars_id hnospace]
    obtain ⟨d0, t, ht, hd0⟩ := natDigs_head m
    rw [ht, List.cons_append,
      pyFloatChars_nosign ((dchar_facts d0 hd0).2.2.2.1) ((dchar_facts d0 hd0).2.2.2.2.1),
      ← List.cons_append, ← ht, hcore]
    show mkRat ((10 * m + d : ℕ) : ℤ) 10 = round1 q
    rw [round1, ← hn]
    have hz : ((10 * m + d : ℕ) : ℤ) = n := by omega
    rw [hz]

/-! ## State-machine helper lemmas -/

theorem drainLine_preserves (st : AppState) (raw : String) :
    (drainLine st raw).ser = st.ser ∧
    (drainLine st raw).movement_letter = st.movement_letter ∧
    (drainLine st raw).selected_movement = st.selected_movement ∧
    (drainLine st raw).selected_side = st.selected_side ∧
    (drainLine st raw).serial_read_start_time = st.serial_read_start_time ∧
    (drainLine st raw).serial_read_duration = st.serial_read_duration ∧
    (drainLine st raw).serial_read_mode = st.serial_read_mode ∧
    (drainLine st raw).unaffected_angle_entries = st.unaffected_angle_entries ∧
    (drainLine st raw).affected_angle_entries = st.affected_angle_entries := by
  cases h : parse_live (pyStrip raw) <;> simp [drainLine, h]

theorem drain_preserves (incoming : List String) :
    ∀ st : AppState,
    (drain st incoming).ser = st.ser ∧
    (drain st incoming).movement_letter = st.movement_letter ∧
    (drain st incoming).selected_movement = st.selected_movement ∧
    (drain st incoming).selected_side = st.selected_side ∧
    (drain st incoming).serial_read_start_time = st.serial_read_start_time ∧
    (drain st incoming).serial_read_duration = st.serial_read_duration ∧
    (drain st incoming).serial_read_mode = st.serial_read_mode ∧
    (drain st incoming).unaffected_angle_entries = st.unaffected_angle_entries ∧
    (drain st incoming).affected_angle_entries = st.affected_angle_entries := by
  induction incoming with
  | nil => intro st; exact ⟨rfl, rfl, rfl, rfl, rfl, rfl, rfl, rfl, rfl⟩
  | cons raw rest ih =>
    intro st
    have h1 := drainLine_preserves st raw
    have h2 := ih (drainLine st raw)
    rw [show drain st (raw :: rest) = drain (drainLine st raw) rest from rfl]
    exact ⟨h2.1.trans h1.1, h2.2.1.trans h1.2.1, h2.2.2.1.trans h1.2.2.1,
      h2.2.2.2.1.trans h1.2.2.2.1, h2.2.2.2.2.1.trans h1.2.2.2.2.1,
      h2.2.2.2.2.2.1.trans h1.2.2.2.2.2.1, h2.2.2.2.2.2.2.1.trans h1.2.2.2.2.2.2.1,
      h2.2.2.2.2.2.2.2.1.trans h1.2.2.2.2.2.2.2.1,
      h2.2.2.2.2.2.2.2.2.trans h1.2.2.2.2.2.2.2.2⟩

theorem drainLine_events (st : AppState) (raw : String) :
    ∃ extra, (drainLine st raw).events = st.events ++ extra ∧
      ∀ e ∈ extra, ∃ v, e = Event.liveAngle v := by
  cases h : parse_live (pyStrip raw) with
  | none => exact ⟨[], by simp [drainLine, h]⟩
  | some v =>
    refine ⟨[Event.liveAngle v], by simp [drainLine, h], ?_⟩
    intro e he
    simp only [List.mem_singleton] at he
    exact ⟨v, he⟩

theorem drain_events (incoming : List String) :
    ∀ st : AppState, ∃ extra, (drain st incoming).events = st.events ++ extra ∧
      ∀ e ∈ extra, ∃ v, e = Event.liveAngle v := by
  induction incoming with
  | nil => intro st; exact ⟨[], by simp [drain], by simp⟩
  | cons raw rest ih =>
    intro st
    obtain ⟨x1, hx1, hv1⟩ := drainLine_events st raw
    obtain ⟨x2, hx2, hv2⟩ := ih (drainLine st raw)
    refine ⟨x1 ++ x2, ?_, ?_⟩
    · rw [show drain st (raw :: rest) = drain (drainLine st raw) rest from rfl, hx2, hx1,
        List.append_assoc]
    · intro e he
      rcases List.mem_append.1 he with he | he
      · exact hv1 e he
      · exact hv2 e he

/-- The fully successful finalize: parsed value, side and index present. -/
theorem process_final_spec (st : AppState) (v : ℚ) (side : Side) (idx : Nat)
    (hp : parse_final st.serial_full_response = some v)
    (hs : st.selected_side = some side) (hi : st.selected_movement = some idx) :
    process_final_serial_data st =
      { setEntry st side idx (fmt1 v) with
          events := (setEntry st side idx (fmt1 v)).events ++
            [Event.finalAngle side idx (fmt1 v), Event.romUpdate, Event.liveAngle v]
          live_angle := v } := by
  rw [process_final_serial_data]
  simp only [hp, hs, hi]

/-- The failed finalize: no parseable tagged line in the buffer. -/
theorem process_final_none (st : AppState)
    (hp : parse_final st.serial_full_response = none) :
    process_final_serial_data st = pushEvent st (Event.errMsg msgNoAngle) := by
  rw [process_final_serial_data]
  simp only [hp]

theorem setEntry_events (st : AppState) (side : Side) (idx : Nat) (txt : String) :
    (setEntry st side idx txt).events = st.events := by
  cases side <;> rfl

theorem setEntry_getEntries (st : AppState) (side : Side) (idx : Nat) (txt : String) :
    getEntries (setEntry st side idx txt) side = (getEntries st side).set idx txt := by
  cases side <;> rfl

/-- Any entry write performed by a finalize names the currently selected
side and movement index. -/
theorem process_final_provenance (st : AppState) (side : Side) (idx : Nat) (txt : String)
    (h : Event.finalAngle side idx txt ∈ (process_final_serial_data st).events) :
    Event.finalAngle side idx txt ∈ st.events ∨
      (st.selected_side = some side ∧ st.selected_movement = some idx) := by
  rw [process_final_serial_data] at h
  cases hp : parse_final st.serial_full_response with
  | none =>
    rw [hp] at h
    simp only [pushEvent, List.mem_append, List.mem_singleton] at h
    rcases h with h | h
    · exact Or.inl h
    · exact absurd h (by simp)
  | some v =>
    rw [hp] at h
    cases hs : st.selected_side with
    | none => rw [hs] at h; exact Or.inl h
    | some s =>
      rw [hs] at h
      cases hi : st.selected_movement with
      | none =>
        rw [hi] at h
        simp only [pushEvent, List.mem_append, List.mem_singleton] at h
        rcases h with h | h
        · exact Or.inl h
        · exact absurd h (by simp)
      | some i =>
        rw [hi] at h
        simp only [List.mem_append, setEntry_events, List.mem_cons, List.mem_singleton,
          List.not_mem_nil, or_false] at h
        rcases h with h | h | h | h
        · exact Or.inl h
        · obtain ⟨hside, hidx, -⟩ := Event.finalAngle.inj h
          subst hside
          subst hidx
          exact Or.inr ⟨by simp [hs], by simp [hi]⟩
        · exact absurd h (by simp)
        · exact absurd h (by simp)

/-- Each polling tick leaves the state as one of: untouched (dead port),
drained only, or drained-and-finalized. -/
theorem tick_result_cases (st : AppState) (now : ℚ) (incoming : List String) :
    (read_serial_live st now incoming).1 = st ∨
    (read_serial_live st now incoming).1 = drain st incoming ∨
    (read_serial_live st now incoming).1 = process_final_serial_data (drain st incoming) := by
  rw [read_serial_live]
  rcases st.ser with - | b
  · exact Or.inl rfl
  · cases b
    · exact Or.inl rfl
    · dsimp only
      cases hst : (drain st incoming).serial_read_start_time with
      | none => exact Or.inr (Or.inl rfl)
      | some t0 =>
        dsimp only
        by_cases hdl : (drain st incoming).serial_read_duration ≤ elapsedMs now t0
        · rw [if_pos hdl]
          by_cases hm : (drain st incoming).serial_read_mode = Mode.measurement
          · rw [if_pos hm]
            exact Or.inr (Or.inr rfl)
          · rw [if_neg hm]
            exact Or.inr (Or.inl rfl)
        · rw [if_neg hdl]
          exact Or.inr (Or.inl rfl)

/-- A tick on an open port past the deadline in measurement mode drains and
finalizes, and does not re-arm the timer. -/
theorem tick_deadline_measurement (st : AppState) (now : ℚ) (incoming : List String) (t0 : ℚ)
    (hser : st.ser = some true) (hmode : st.serial_read_mode = Mode.measurement)
    (hst : st.serial_read_start_time = some t0)
    (hdl : st.serial_read_duration ≤ elapsedMs now t0) :
    read_serial_live st now incoming = (process_final_serial_data (drain st incoming), false) := by
  have hp := drain_preserves incoming st
  rw [read_serial_live, hser]
  dsimp only
  rw [show (drain st incoming).serial_read_start_time = some t0 from hp.2.2.2.2.1.trans hst]
  dsimp only
  rw [if_pos (show (drain st incoming).serial_read_duration ≤ elapsedMs now t0 from
    hp.2.2.2.2.2.1.symm ▸ hdl)]
  rw [if_pos (hp.2.2.2.2.2.2.1.trans hmode)]

/-- A tick on an open port past the deadline in calibration mode only
drains: no finalize, no timer re-arm. -/
theorem tick_deadline_calibration (st : AppState) (now : ℚ) (incoming : List String) (t0 : ℚ)
    (hser : st.ser = some true) (hmode : st.serial_read_mode = Mode.calibration)
    (hst : st.serial_read_start_time = some t0)
    (hdl : st.serial_read_duration ≤ elapsedMs now t0) :
    read_serial_live st now incoming = (drain st incoming, false) := by
  have hp := drain_preserves incoming st
  rw [read_serial_live, hser]
  dsimp only
  rw [show (drain st incoming).serial_read_start_time = some t0 from hp.2.2.2.2.1.trans hst]
  dsimp only
  rw [if_pos (show (drain st incoming).serial_read_duration ≤ elapsedMs now t0 from
    hp.2.2.2.2.2.1.symm ▸ hdl)]
  rw [if_neg (show ¬ (drain st incoming).serial_read_mode = Mode.measurement from by
    rw [hp.2.2.2.2.2.2.1, hmode]
    exact fun hcm => Mode.noConfusion hcm)]

/-- Any slot write performed by any tick names the state's current
selection: there is no other routing, and no session identity. -/
theorem tick_provenance (st : AppState) (now : ℚ) (incoming : List String) (side : Side)
    (idx : Nat) (txt : String)
    (h : Event.finalAngle side idx txt ∈ (read_serial_live st now incoming).1.events) :
    Event.finalAngle side idx txt ∈ st.events ∨
      (st.selected_side = some side ∧ st.selected_movement = some idx) := by
  have hdrain : ∀ hm : Event.finalAngle side idx txt ∈ (drain st incoming).events,
      Event.finalAngle side idx txt ∈ st.events := by
    intro hm
    obtain ⟨x, hx, hv⟩ := drain_events incoming st
    rw [hx] at hm
    rcases List.mem_append.1 hm with hm | hm
    · exact hm
    · obtain ⟨v, hev⟩ := hv _ hm
      exact absurd hev (by simp)
  rcases tick_result_cases st now incoming with hc | hc | hc
  · rw [hc] at h
    exact Or.inl h
  · rw [hc] at h
    exact Or.inl (hdrain h)
  · rw [hc] at h
    have hp := drain_preserves incoming st
    rcases process_final_provenance (drain st incoming) side idx txt h with h | ⟨h1, h2⟩
    · exact Or.inl (hdrain h)
    · exact Or.inr ⟨hp.2.2.2.1.symm.trans h1, hp.2.2.1.symm.trans h2⟩

/-! ## Remaining small helpers -/

theorem getD_replicate_empty (n : Nat) : ∀ i : Nat,
    (List.replicate n ("" : String)).getD i "" = "" := by
  induction n with
  | zero => intro i; rfl
  | succ n ih =>
    intro i
    cases i with
    | zero => rfl
    | succ j => exact ih j

theorem map_to_empty (l : List String) :
    l.map (fun _ => ("" : String)) = List.replicate l.length "" := by
  induction l with
  | nil => rfl
  | cons x xs ih => simp [ih, List.replicate_succ]

theorem rom_all_empty (n : Nat) :
    calculate_rom_side (List.replicate n "") =
      { wrist := 0, forearm := 0, elbow := 0, wrist_deviation := 0 } := by
  have he : safe_float ("") = 0 := by decide
  simp only [calculate_rom_side, getD_replicate_empty, he]
  norm_num

/-! ## The claims -/

/-- C1: for every side and every 8-element slot array, with each unset slot
treated as `0.0`, the ROM aggregation returns exactly
`wrist = slots[0]+slots[1]`, `forearm = slots[2]+slots[3]`,
`elbow = (slots[4]+slots[5])/2`, `wrist_deviation = slots[6]+slots[7]`,
with no clamping or range validation; `[30,40,10,20,60,80,5,15]` yields
`(70, 30, 70, 20)`; the computation is deterministic.  The first conjunct
compares the source computation (`calculate_rom_side`, used identically
for both sides' entry lists) with the spec formula `rom_spec` over the
optional slot values; an unset (empty or unparseable) entry is exactly a
`none` slot.  The out-of-range example `-50/400` passing through unclamped
witnesses the absence of validation. -/
theorem C1_rom_aggregation :
    (∀ e0 e1 e2 e3 e4 e5 e6 e7 : String,
      calculate_rom_side [e0, e1, e2, e3, e4, e5, e6, e7] =
        rom_spec ([e0, e1, e2, e3, e4, e5, e6, e7].map pyFloat)) ∧
    (∀ entries : List String, calculate_rom_side entries = calculate_rom_side entries) ∧
    pyFloat ("") = none ∧
    calculate_rom_side ["30", "40", "10", "20", "60", "80", "5", "15"] =
      { wrist := 70, forearm := 30, elbow := 70, wrist_deviation := 20 } ∧
    calculate_rom_side ["-50", "400", "", "", "", "", "", ""] =
      { wrist := 350, forearm := 0, elbow := 0, wrist_deviation := 0 } := by
  refine ⟨fun e0 e1 e2 e3 e4 e5 e6 e7 => rfl, fun entries => rfl, by decide, ?_, ?_⟩
  · have h0 : safe_float ("30") = 30 := by decide
    have h1 : safe_float ("40") = 40 := by decide
    have h2 : safe_float ("10") = 10 := by decide
    have h3 : safe_float ("20") = 20 := by decide
    have h4 : safe_float ("60") = 60 := by decide
    have h5 : safe_float ("80") = 80 := by decide
    have h6 : safe_float ("5") = 5 := by decide
    have h7 : safe_float ("15") = 15 := by decide
    norm_num [calculate_rom_side, h0, h1, h2, h3, h4, h5, h6, h7]
  · have h0 : safe_float ("-50") = -50 := by decide
    have h1 : safe_float ("400") = 400 := by decide
    have h2 : safe_float ("") = 0 := by decide
    norm_num [calculate_rom_side, h0, h1, h2]

/-- C2, counterexample: the claim states `parse_final` returns `None`
when the matched line's numeric suffix fails to parse (the matched line
being the first marker line found scanning from the last).  On the buffer
of lines `ANGLE:12.0`, `ANGLE:xyz`, the matched line is `ANGLE:xyz`, its
suffix does not parse, and yet `parse_final` returns `12.0` — the
`continue` in the source moves the scan on to EARLIER lines instead of
returning `None`. -/
theorem C2_counterexample :
    (linesOf ("ANGLE:12.0\nANGLE:xyz\n")).reverse.find? hasMarker =
      some (markerL ++ ['x', 'y', 'z']) ∧
    lineAngle (markerL ++ ['x', 'y', 'z']) = none ∧
    parse_final ("ANGLE:12.0\nANGLE:xyz\n") = some (mkRat 12 1) ∧
    parse_final ("ANGLE:12.0\nANGLE:xyz\n") ≠ none := by
  refine ⟨by decide, by decide, by decide, by decide⟩

/-- C2, amended: `parse_final` scans the stripped buffer's lines from the
last to the first and returns the value of the first line whose `ANGLE:`
suffix parses — equivalently, the LAST parseable tagged line wins; a
tagged line whose suffix fails to parse is skipped, and `None` is returned
exactly when no line yields a parseable tagged value.  The examples:
`junk/ANGLE:12.0/ANGLE:45.5` gives `45.5` (last tagged line wins), a
marker-free buffer gives `None`, and `ANGLE:12.0/ANGLE:xyz` falls back to
`12.0`. -/
theorem C2_parse_final_amended :
    (∀ buffer : String,
      parse_final buffer = ((linesOf buffer).filterMap lineAngle).getLast?) ∧
    (∀ buffer : String,
      (parse_final buffer = none ↔ ∀ l ∈ linesOf buffer, lineAngle l = none)) ∧
    parse_final ("junk\nANGLE:12.0\nANGLE:45.5\n") = some (45.5 : ℚ) ∧
    parse_final ("no angle here") = none ∧
    parse_final ("ANGLE:12.0\nANGLE:xyz\n") = some (12 : ℚ) := by
  have hgen : ∀ buffer : String,
      parse_final buffer = ((linesOf buffer).filterMap lineAngle).getLast? := by
    intro buffer
    rw [parse_final, List.filterMap_getLast?]
  refine ⟨hgen, ?_, ?_, by decide, ?_⟩
  · intro buffer
    rw [hgen buffer, List.getLast?_eq_none_iff, List.filterMap_eq_nil_iff]
  · have h : parse_final ("junk\nANGLE:12.0\nANGLE:45.5\n") = some (mkRat 455 10) := by
      decide
    rw [h, mkRat_as_div]
    norm_num
  · have h : parse_final ("ANGLE:12.0\nANGLE:xyz\n") = some (mkRat 12 1) := by decide
    rw [h, mkRat_as_div]
    norm_num

/-- C3, counterexample: the claim states that exactly the value `v`
obtained by `parse_final` is written into the slot.  In the run where the
device streams `ANGLE:42.3125` (a value exact in binary floating point),
finalize obtains `v = 42.3125` but the slot receives the one-decimal
rendering `"42.3"`, which re-reads as `42.3 ≠ 42.3125`. -/
theorem C3_counterexample :
    parse_final runBad1.1.serial_full_response = some (mkRat 677 16) ∧
    runBadFinal.1.unaffected_angle_entries.getD 0 ("") = "42.3" ∧
    safe_float (runBadFinal.1.unaffected_angle_entries.getD 0 ("")) = mkRat 423 10 ∧
    ¬ safe_float (runBadFinal.1.unaffected_angle_entries.getD 0 ("")) = mkRat 677 16 := by
  refine ⟨by decide, by decide, by decide, by decide⟩

/-- C3, amended: whenever finalize obtains `v` with a side and movement
selected, the ONE-DECIMAL RENDERING of `v` is written into the slot at
(selected side, selected movement index), the entry-write notification
fires once, the ROM display is refreshed, and the exact `v` goes to the
live display.  In the end-to-end scenario — connected, ("Wrist Flexion",
unaffected) selected, `start()` writes `f`, the device streams `noise`
then `ANGLE:42.3` before the 7000 ms deadline — slot (unaffected, 0)
becomes `"42.3"` (42.3 is one-decimal exact, so the stored value equals
`v`), the notification fired exactly once, and the unaffected wrist ROM
recomputes to `42.3 + 0.0 = 42.3`. -/
theorem C3_finalize_amended :
    (∀ (st : AppState) (v : ℚ) (side : Side) (idx : Nat),
      parse_final st.serial_full_response = some v →
      st.selected_side = some side → st.selected_movement = some idx →
      process_final_serial_data st =
        { setEntry st side idx (fmt1 v) with
            events := (setEntry st side idx (fmt1 v)).events ++
              [Event.finalAngle side idx (fmt1 v), Event.romUpdate, Event.liveAngle v]
            live_angle := v }) ∧
    stSelected.movement_letter = some 'f' ∧
    stStarted.events = [Event.resetInput, Event.serWrite 'f'] ∧
    runFinal.1.unaffected_angle_entries = ["42.3", "", "", "", "", "", "", ""] ∧
    runFinal.1.events.count (Event.finalAngle Side.unaffected 0 "42.3") = 1 ∧
    runFinal.1.live_angle = mkRat 423 10 ∧
    (calculate_rom_side runFinal.1.unaffected_angle_entries).wrist = mkRat 423 10 := by
  refine ⟨process_final_spec, by decide, by decide, by decide, by decide, by decide, ?_⟩
  have he : runFinal.1.unaffected_angle_entries = ["42.3", "", "", "", "", "", "", ""] := by
    decide
  have h423 : safe_float ("42.3") = mkRat 423 10 := by decide
  have h0 : safe_float ("") = 0 := by decide
  rw [he]
  show safe_float ("42.3") + safe_float ("") = mkRat 423 10
  rw [h423, h0, add_zero]

/-- C4, counterexample: the claim requires a still-queued polling tick of
a superseded session to be blocked by an instance/generation guard from
writing into a slot owned by the newer session.  Concretely: session 1
starts at `t = 0` (unaffected, index 0); at `t = 1 s` — before session
1's 7000 ms deadline — session 2 starts (affected, index 1).  A tick
still queued by session 1's chain (tag 1) then fires at `t = 8.05 s` with
`ANGLE:50.0` available: it is not blocked by anything and writes `"50.0"`
into slot (affected, 1), the slot owned by session 2. -/
theorem C4_counterexample :
    staleTick.1.affected_angle_entries.getD 1 ("") = "50.0" ∧
    Event.finalAngle Side.affected 1 "50.0" ∈ staleTick.1.events ∧
    ¬ Event.finalAngle Side.affected 1 "50.0" ∈ stStarted2.events := by
  refine ⟨by decide, by decide, by decide⟩

/-- C4, amended: the source has no instance/generation guard at all — a
queued tick carries no session identity, so a superseded session's tick
executes exactly as a current-session tick on the shared global state
(first conjunct).  Consequently a stale tick can never write a STALE
value into the newer session's slot: every slot write any tick performs
names the currently selected side and movement index and stores the
current buffer's parsed value (second conjunct, write provenance); the
harm is limited to duplicated polling and a duplicated finalize of the
current session. -/
theorem C4_no_generation_guard :
    (∀ (gen gen2 : Nat) (st : AppState) (now : ℚ) (incoming : List String),
      tickTagged gen st now incoming = tickTagged gen2 st now incoming) ∧
    (∀ (st : AppState) (now : ℚ) (incoming : List String) (side : Side) (idx : Nat)
      (txt : String),
      Event.finalAngle side idx txt ∈ (read_serial_live st now incoming).1.events →
      Event.finalAngle side idx txt ∈ st.events ∨
        (st.selected_side = some side ∧ st.selected_movement = some idx)) := by
  exact ⟨fun _ _ _ _ _ => rfl, tick_provenance⟩

/-- C5: in every measurement session where no parseable `ANGLE:` line has
arrived by the wall-clock deadline (the code's test
`(now - start_time) * 1000 >= 7000`, written `elapsedMs`, see
`elapsedMs_eq`) — including a device that never responds — the tick at the
deadline does not re-arm the timer (the session terminates), finalize
yields no value, the no-data error is surfaced (the `ABORTED/NoAngleData`
outcome), and every angle slot keeps its prior contents.  The last
conjunct is the never-responding device: the started session ticks at
`t = 8 s` with nothing drained and aborts with the error, slots unset. -/
theorem C5_timeout_no_data :
    (∀ (st : AppState) (now : ℚ) (incoming : List String) (t0 : ℚ),
      st.ser = some true →
      st.serial_read_mode = Mode.measurement →
      st.serial_read_start_time = some t0 →
      st.serial_read_duration ≤ elapsedMs now t0 →
      parse_final (drain st incoming).serial_full_response = none →
      read_serial_live st now incoming =
        (pushEvent (drain st incoming) (Event.errMsg msgNoAngle), false)) ∧
    (∀ (st : AppState) (incoming : List String),
      (drain st incoming).unaffected_angle_entries = st.unaffected_angle_entries ∧
      (drain st incoming).affected_angle_entries = st.affected_angle_entries) ∧
    silentTick = (pushEvent stStarted (Event.errMsg msgNoAngle), false) ∧
    silentTick.1.unaffected_angle_entries = List.replicate 8 "" ∧
    silentTick.1.affected_angle_entries = List.replicate 8 "" := by
  refine ⟨?_, ?_, by decide, by decide, by decide⟩
  · intro st now incoming t0 hser hmode hst hdl hnone
    rw [tick_deadline_measurement st now incoming t0 hser hmode hst hdl,
      process_final_none _ hnone]
  · intro st incoming
    have hp := drain_preserves incoming st
    exact ⟨hp.2.2.2.2.2.2.2.1, hp.2.2.2.2.2.2.2.2⟩

/-- C6: `start()` checks its preconditions before touching the device.
With the serial object absent or closed it surfaces the not-connected
error; with an open channel but no movement/index/side selected it
surfaces the no-selection error.  In both cases the resulting state is
exactly the prior state plus the error event — no command byte or reset
reaches the channel and no session attribute (start time, buffer, mode,
output box) changes — and nothing terminates: the third conjunct shows a
subsequent, fully selected `start()` on the repaired state succeeds. -/
theorem C6_start_preconditions :
    (∀ (st : AppState) (now : ℚ), (st.ser = none ∨ st.ser = some false) →
      start_measurement st now = pushEvent st (Event.errMsg msgNotConnected)) ∧
    (∀ (st : AppState) (now : ℚ), st.ser = some true →
      (st.movement_letter = none ∨ st.selected_movement = none ∨ st.selected_side = none) →
      start_measurement st now = pushEvent st (Event.errMsg msgNoMovement)) ∧
    (∀ (st : AppState) (now : ℚ) (letter : Char) (idx : Nat) (side : Side),
      st.ser = some true → st.movement_letter = some letter →
      st.selected_movement = some idx → st.selected_side = some side →
      start_measurement st now =
        { st with events := st.events ++ [Event.resetInput, Event.serWrite letter]
                  serial_output_box := ""
                  serial_read_start_time := some now
                  serial_full_response := ""
                  serial_read_mode := Mode.measurement }) := by
  refine ⟨?_, ?_, ?_⟩
  · intro st now h
    rcases h with h | h <;> simp [start_measurement, h]
  · intro st now hser h
    cases hml : st.movement_letter <;> cases hsm : st.selected_movement <;>
      cases hside : st.selected_side <;> simp_all [start_measurement]
  · intro st now letter idx side hser hml hsm hside
    simp [start_measurement, hser, hml, hsm, hside]

/-- C7: a calibration session started on an open channel clears the input
buffer and sends the single fixed byte `r`, regardless of any movement
selection (the first conjunct holds for every state with an open channel,
with the selection fields unconstrained and untouched).  When the 7000 ms
deadline elapses, the calibration tick completes without finalizing: the
result is exactly the drained state — finalize is never invoked, so no
angle slot is written, no entry-write or ROM-refresh event is emitted
(drain only adds live-angle events), and the timer is not re-armed. -/
theorem C7_calibration :
    (∀ (st : AppState) (now : ℚ), st.ser = some true →
      calibrate st now =
        { st with events := st.events ++ [Event.resetInput, Event.serWrite 'r']
                  serial_output_box := ""
                  serial_read_start_time := some now
                  serial_full_response := ""
                  serial_read_mode := Mode.calibration }) ∧
    (∀ (st : AppState) (now : ℚ) (incoming : List String) (t0 : ℚ),
      st.ser = some true →
      st.serial_read_mode = Mode.calibration →
      st.serial_read_start_time = some t0 →
      st.serial_read_duration ≤ elapsedMs now t0 →
      read_serial_live st now incoming = (drain st incoming, false)) ∧
    (∀ (st : AppState) (incoming : List String),
      (drain st incoming).unaffected_angle_entries = st.unaffected_angle_entries ∧
      (drain st incoming).affected_angle_entries = st.affected_angle_entries ∧
      ∃ extra, (drain st incoming).events = st.events ++ extra ∧
        ∀ e ∈ extra, ∃ v, e = Event.liveAngle v) ∧
    calibStarted.events = [Event.resetInput, Event.serWrite 'r'] ∧
    calibTick = (drain calibStarted ["91.2"], false) ∧
    calibTick.1.unaffected_angle_entries = List.replicate 8 "" ∧
    calibTick.1.affected_angle_entries = List.replicate 8 "" := by
  refine ⟨?_, tick_deadline_calibration, ?_, by decide, by decide, by decide, by decide⟩
  · intro st now hser
    simp [calibrate, hser]
  · intro st incoming
    have hp := drain_preserves incoming st
    exact ⟨hp.2.2.2.2.2.2.2.1, hp.2.2.2.2.2.2.2.2, drain_events incoming st⟩

/-- C8: the live parse is the total function modelling `float(line)` on
the stripped line — a failure is the value `none`, never a propagated
exception (the model's return type is `Option`; there is no exceptional
control path).  `parse_live "93.5" = 93.5`, `parse_live "ANGLE:93.5" =
None`, `parse_live "" = None`; and a `none` result never aborts the
session: the drain step for an unparseable line only appends the line to
the accumulated response and the output box, leaving the live display,
the events, the slots and all session attributes unchanged, while a
parsed value only updates the live display. -/
theorem C8_parse_live_total :
    parse_live ("93.5") = some (93.5 : ℚ) ∧
    parse_live ("ANGLE:93.5") = none ∧
    parse_live ("") = none ∧
    (∀ (st : AppState) (raw : String), parse_live (pyStrip raw) = none →
      drainLine st raw =
        { st with
            serial_full_response := st.serial_full_response ++ pyStrip raw ++ nlStr
            serial_output_box := st.serial_output_box ++ pyStrip raw ++ nlStr }) ∧
    (∀ (st : AppState) (raw : String) (v : ℚ), parse_live (pyStrip raw) = some v →
      drainLine st raw =
        { st with
            serial_full_response := st.serial_full_response ++ pyStrip raw ++ nlStr
            serial_output_box := st.serial_output_box ++ pyStrip raw ++ nlStr
            live_angle := v
            events := st.events ++ [Event.liveAngle v] }) := by
  refine ⟨?_, by decide, by decide, ?_, ?_⟩
  · have h : parse_live ("93.5") = some (mkRat 935 10) := by decide
    rw [h, mkRat_as_div]
    norm_num
  · intro st raw h
    simp [drainLine, h]
  · intro st raw v h
    simp [drainLine, h]

/-- C9: clear-all blanks all 16 angle slots (8 per side) and zeroes the
live display, after which the recomputed ROM for both sides is all zeros;
the serial connection object is untouched (as are the selection and
session attributes). -/
theorem C9_clear_all :
    ∀ st : AppState,
      (clear_all_measurements st).unaffected_angle_entries =
        List.replicate st.unaffected_angle_entries.length "" ∧
      (clear_all_measurements st).affected_angle_entries =
        List.replicate st.affected_angle_entries.length "" ∧
      (clear_all_measurements st).live_angle = 0 ∧
      (clear_all_measurements st).ser = st.ser ∧
      calculate_rom_side (clear_all_measurements st).unaffected_angle_entries =
        { wrist := 0, forearm := 0, elbow := 0, wrist_deviation := 0 } ∧
      calculate_rom_side (clear_all_measurements st).affected_angle_entries =
        { wrist := 0, forearm := 0, elbow := 0, wrist_deviation := 0 } := by
  intro st
  have hu : (clear_all_measurements st).unaffected_angle_entries =
      List.replicate st.unaffected_angle_entries.length "" := map_to_empty _
  have ha : (clear_all_measurements st).affected_angle_entries =
      List.replicate st.affected_angle_entries.length "" := map_to_empty _
  refine ⟨hu, ha, rfl, rfl, ?_, ?_⟩
  · rw [hu, rom_all_empty]
  · rw [ha, rom_all_empty]

/-- C10: on every successful finalize the slot text written is the parsed
angle rendered to one decimal place (`f"{v:.1f}"`), not the exact parsed
float, and re-reading the slot through `safe_float` yields exactly the
one-decimal rounding of the parsed value; the exact value is forwarded
only to the live display.  At `v = 42.3125` the rendering is `"42.3"`,
re-reading gives `42.3`, and the rendering differs from the exact
`"42.3125"`. -/
theorem C10_slot_one_decimal :
    (∀ (st : AppState) (v : ℚ) (side : Side) (idx : Nat),
      parse_final st.serial_full_response = some v →
      st.selected_side = some side → st.selected_movement = some idx →
      getEntries (process_final_serial_data st) side = (getEntries st side).set idx (fmt1 v) ∧
      (process_final_serial_data st).live_angle = v) ∧
    (∀ v : ℚ, safe_float (fmt1 v) = round1 v) ∧
    fmt1 (mkRat 677 16) = "42.3" ∧
    round1 (mkRat 677 16) = mkRat 423 10 ∧
    ¬ fmt1 (mkRat 677 16) = "42.3125" := by
  refine ⟨?_, safe_float_fmt1, by decide, by decide, by decide⟩
  intro st v side idx hp hs hi
  rw [process_final_spec st v side idx hp hs hi]
  refine ⟨?_, rfl⟩
  show getEntries (setEntry st side idx (fmt1 v)) side = _
  exact setEntry_getEntries st side idx (fmt1 v)

/-! ## Witnesses: the claim theorems applied at concrete inputs -/

/-- Witness for C1 at the spec's example slots. -/
theorem C1_rom_aggregation_witness :
    calculate_rom_side ["30", "40", "10", "20", "60", "80", "5", "15"] =
      rom_spec (["30", "40", "10", "20", "60", "80", "5", "15"].map pyFloat) :=
  C1_rom_aggregation.1 "30" "40" "10" "20" "60" "80" "5" "15"

/-- Witness for C2 on the spec's example buffer. -/
theorem C2_parse_final_amended_witness :
    parse_final ("junk\nANGLE:12.0\nANGLE:45.5\n") =
      ((linesOf ("junk\nANGLE:12.0\nANGLE:45.5\n")).filterMap lineAngle).getLast? :=
  C2_parse_final_amended.1 ("junk\nANGLE:12.0\nANGLE:45.5\n")

/-- Witness for C3: the general finalize equation at the 42.3125 run. -/
theorem C3_finalize_amended_witness :
    process_final_serial_data runBad1.1 =
      { setEntry runBad1.1 Side.unaffected 0 (fmt1 (mkRat 677 16)) with
          events := (setEntry runBad1.1 Side.unaffected 0 (fmt1 (mkRat 677 16))).events ++
            [Event.finalAngle Side.unaffected 0 (fmt1 (mkRat 677 16)), Event.romUpdate,
              Event.liveAngle (mkRat 677 16)]
          live_angle := mkRat 677 16 } :=
  C3_finalize_amended.1 runBad1.1 (mkRat 677 16) Side.unaffected 0 (by decide) (by decide)
    (by decide)

/-- Witness for C4: write provenance at the stale-tick run. -/
theorem C4_no_generation_guard_witness :
    Event.finalAngle Side.affected 1 "50.0" ∈ stStarted2.events ∨
      (stStarted2.selected_side = some Side.affected ∧
        stStarted2.selected_movement = some 1) :=
  C4_no_generation_guard.2 stStarted2 (mkRat 161 20) ["ANGLE:50.0"] Side.affected 1 "50.0"
    (by decide)

/-- Witness for C5: the silent device aborts with the no-data error. -/
theorem C5_timeout_no_data_witness :
    read_serial_live stStarted 8 [] =
      (pushEvent (drain stStarted []) (Event.errMsg msgNoAngle), false) :=
  C5_timeout_no_data.1 stStarted 8 [] 0 (by decide) (by decide) (by decide) (by decide)
    (by decide)

/-- Witness for C6: all three start paths at concrete states. -/
theorem C6_start_preconditions_witness :
    start_measurement initState 0 = pushEvent initState (Event.errMsg msgNotConnected) ∧
    start_measurement stConnected 0 = pushEvent stConnected (Event.errMsg msgNoMovement) ∧
    start_measurement stSelected 0 =
      { stSelected with
          events := stSelected.events ++ [Event.resetInput, Event.serWrite 'f']
          serial_output_box := ""
          serial_read_start_time := some 0
          serial_full_response := ""
          serial_read_mode := Mode.measurement } :=
  ⟨C6_start_preconditions.1 initState 0 (Or.inl rfl),
    C6_start_preconditions.2.1 stConnected 0 rfl (Or.inl rfl),
    C6_start_preconditions.2.2 stSelected 0 'f' 0 Side.unaffected rfl rfl rfl rfl⟩

/-- Witness for C7: calibration start and post-deadline tick. -/
theorem C7_calibration_witness :
    calibrate stSelected 0 =
      { stSelected with
          events := stSelected.events ++ [Event.resetInput, Event.serWrite 'r']
          serial_output_box := ""
          serial_read_start_time := some 0
          serial_full_response := ""
          serial_read_mode := Mode.calibration } ∧
    read_serial_live calibStarted 8 ["91.2"] = (drain calibStarted ["91.2"], false) :=
  ⟨C7_calibration.1 stSelected 0 rfl,
    C7_calibration.2.1 calibStarted 8 ["91.2"] 0 (by decide) (by decide) (by decide)
      (by decide)⟩

/-- Witness for C8: the drain step on an unparseable line leaves the
session untouched apart from the text buffers. -/
theorem C8_parse_live_total_witness :
    drainLine initState ("ANGLE:93.5") =
      { initState with
          serial_full_response :=
            initState.serial_full_response ++ pyStrip ("ANGLE:93.5") ++ nlStr
          serial_output_box :=
            initState.serial_output_box ++ pyStrip ("ANGLE:93.5") ++ nlStr } :=
  C8_parse_live_total.2.2.2.1 initState ("ANGLE:93.5") (by decide)

/-- Witness for C9 at the initial state. -/
theorem C9_clear_all_witness :
    (clear_all_measurements initState).unaffected_angle_entries =
      List.replicate initState.unaffected_angle_entries.length "" ∧
    (clear_all_measurements initState).affected_angle_entries =
      List.replicate initState.affected_angle_entries.length "" ∧
    (clear_all_measurements initState).live_angle = 0 ∧
    (clear_all_measurements initState).ser = initState.ser ∧
    calculate_rom_side (clear_all_measurements initState).unaffected_angle_entries =
      { wrist := 0, forearm := 0, elbow := 0, wrist_deviation := 0 } ∧
    calculate_rom_side (clear_all_measurements initState).affected_angle_entries =
      { wrist := 0, forearm := 0, elbow := 0, wrist_deviation := 0 } :=
  C9_clear_all initState

/-- Witness for C10: the slot write and live forward at the 42.3125 run. -/
theorem C10_slot_one_decimal_witness :
    getEntries (process_final_serial_data runBad1.1) Side.unaffected =
      (getEntries runBad1.1 Side.unaffected).set 0 (fmt1 (mkRat 677 16)) ∧
    (process_final_serial_data runBad1.1).live_angle = mkRat 677 16 :=
  C10_slot_one_decimal.1 runBad1.1 (mkRat 677 16) Side.unaffected 0 (by decide) (by decide)
    (by decide)
